import Mathlib

/-!
A shallow embedding of the `WorkflowOrchestrator` core of
`gradio_multi_process_orchestrator.py` and proofs about its operations.

Python dictionaries are modelled as association lists (`List (String × α)`)
with first-match lookup and in-place update (`aset`), which matches CPython
dict semantics including insertion order.  The external Gemini call
(`model.generate_content`) is modelled by an `Except String String`
parameter: `.ok text` is a successful response with `response.text = text`,
`.error e` is a raised exception with message `e`.  Calls to
`datetime.now().isoformat()` are modelled by a `ts : String` parameter.
A Python operation that can raise an uncaught exception is modelled with
`Except String`; the error string names the Python exception class.
-/

deriving instance DecidableEq for Except

/-- First-match lookup in an association list: Python `d[k]` / `k in d`. -/
def alookup {α : Type} : List (String × α) → String → Option α
  | [], _ => none
  | (k, v) :: rest, key => if k = key then some v else alookup rest key

/-- In-place update of an association list: Python `d[k] = v` (replaces the
existing entry, keeping its position, or appends a new one). -/
def aset {α : Type} : List (String × α) → String → α → List (String × α)
  | [], key, v => [(key, v)]
  | (k, w) :: rest, key, v =>
      if k = key then (key, v) :: rest else (k, w) :: aset rest key v

/-- `ProcessStatus` enum of the source. -/
inductive ProcessStatus : Type
  | PENDING
  | RUNNING
  | COMPLETED
  | FAILED
  | WAITING_APPROVAL
deriving DecidableEq, Repr

/-- `ProcessConfig` dataclass: configuration of a single process. -/
structure ProcessConfig : Type where
  id : String
  name : String
  description : String
  inputs : List String
  outputs : List String
  gemini_model : String := "gemini-2.0-flash-exp"
  system_prompt : String := ""
  requires_approval : Bool := false
  auto_advance : Bool := true
deriving DecidableEq, Repr

/-- An `ExecutionResult` dict as built by `execute_process`: either the
success payload `{output, process_id, timestamp, inputs}` or the failure
payload `{error, process_id, timestamp}`. -/
inductive ExecResult : Type
  | success (output : String) (process_id : String) (timestamp : String)
      (inputs : List (String × String))
  | failure (error : String) (process_id : String) (timestamp : String)
deriving DecidableEq, Repr

/-- Python `result.get('output', '')` on a stored result dict. -/
def ExecResult.outputText : ExecResult → String
  | .success o _ _ _ => o
  | .failure _ _ _ => ""

/-- One entry of `state.history`: `{process, action, timestamp}`. -/
structure HistoryEntry : Type where
  process : String
  action : String
  timestamp : String
deriving DecidableEq, Repr

/-- `WorkflowState` dataclass (the `started_at` datetime is modelled as an
optional string). -/
structure WorkflowState : Type where
  current_process : Nat := 0
  process_outputs : List (String × ExecResult) := []
  process_status : List (String × ProcessStatus) := []
  history : List HistoryEntry := []
  workflow_id : String := ""
  started_at : Option String := none
deriving DecidableEq, Repr

/-- The orchestrator object: `processes` dict, `process_order` list and the
mutable `state` (the `gemini_clients` cache carries no workflow state and is
not modelled; the model response is a parameter of `execute_process`). -/
structure WorkflowOrchestrator : Type where
  processes : List (String × ProcessConfig)
  process_order : List String
  state : WorkflowState
deriving DecidableEq, Repr

/-- `WorkflowOrchestrator.__init__`: `t` models `int(time.time())`. -/
def WorkflowOrchestrator.init (ps : List ProcessConfig) (t : Nat) :
    WorkflowOrchestrator where
  processes := ps.foldl (fun d p => aset d p.id p) []
  process_order := ps.map (fun p => p.id)
  state :=
    { workflow_id := "wf_" ++ toString t
      process_status := ps.foldl (fun d p => aset d p.id ProcessStatus.PENDING) [] }

/-- `self.state.process_status[process_id] = s`. -/
def setStatus (o : WorkflowOrchestrator) (process_id : String)
    (s : ProcessStatus) : WorkflowOrchestrator :=
  { o with state :=
      { o.state with process_status := aset o.state.process_status process_id s } }

/-- `self.state.process_status[process_id]` (read). -/
def statusOf (o : WorkflowOrchestrator) (process_id : String) :
    Option ProcessStatus :=
  alookup o.state.process_status process_id

/-- The loop body of `_build_context`: the labelled parts collected over the
given id list, `none` when `self.processes[proc_id]` would raise `KeyError`. -/
def contextParts (outputs : List (String × ExecResult))
    (procs : List (String × ProcessConfig)) : List String → Option (List String)
  | [] => some []
  | proc_id :: rest =>
    match alookup outputs proc_id with
    | none => contextParts outputs procs rest
    | some output =>
      match alookup procs proc_id with
      | none => none
      | some proc =>
        (contextParts outputs procs rest).map
          (fun parts => ("[" ++ proc.name ++ "]\n" ++ output.outputText) :: parts)

/-- `_build_context`: `none` models a raised exception (`ValueError` from
`self.process_order.index(...)` when the id is absent, or `KeyError` from
`self.processes[proc_id]`).  `"\n\n---\n\n".join` of the empty list is `""`,
matching the source's `if context_parts else ""`. -/
def build_context (o : WorkflowOrchestrator) (current_process_id : String) :
    Option String :=
  match o.process_order.findIdx? (fun x => x == current_process_id) with
  | none => none
  | some current_idx =>
    (contextParts o.state.process_outputs o.processes
        (o.process_order.take current_idx)).map
      (String.intercalate "\n\n---\n\n")

/-- `_format_prompt`. -/
def format_prompt (proc : ProcessConfig) (inputs : List (String × String))
    (context : String) : String :=
  String.intercalate "\n"
    ((if context ≠ "" then ["CONTEXT FROM PREVIOUS PROCESSES:\n" ++ context ++ "\n"]
      else [])
      ++ ["CURRENT TASK: " ++ proc.description ++ "\n", "INPUTS:"]
      ++ inputs.map (fun kv => "- " ++ kv.1 ++ ": " ++ kv.2))

/-- `execute_process(process_id, inputs)`.  `resp` models the external
`model.generate_content` call (`.ok` response text / `.error` raised
exception), `ts` models `datetime.now().isoformat()`.  The outer
`Except.error` models an exception propagated to the caller: the lookup
`self.processes[process_id]` happens before the `try` block, so an unknown
id raises `KeyError`; everything inside the `try` is caught and converted
into a failure payload with a `FAILED` status. -/
def execute_process (o : WorkflowOrchestrator) (process_id : String)
    (inputs : List (String × String)) (resp : Except String String)
    (ts : String) : Except String (WorkflowOrchestrator × ExecResult) :=
  match alookup o.processes process_id with
  | none => Except.error "KeyError"
  | some proc =>
    let o1 := setStatus o process_id ProcessStatus.RUNNING
    match build_context o1 process_id with
    | none =>
      Except.ok (setStatus o1 process_id ProcessStatus.FAILED,
        ExecResult.failure "ValueError" process_id ts)
    | some context =>
      let _ := format_prompt proc inputs context
      match resp with
      | Except.error e =>
        Except.ok (setStatus o1 process_id ProcessStatus.FAILED,
          ExecResult.failure e process_id ts)
      | Except.ok text =>
        let result := ExecResult.success text process_id ts inputs
        let o2 := { o1 with state :=
          { o1.state with
              process_outputs := aset o1.state.process_outputs process_id result } }
        let o3 := setStatus o2 process_id
          (if proc.requires_approval then ProcessStatus.WAITING_APPROVAL
           else ProcessStatus.COMPLETED)
        let o4 := { o3 with state :=
          { o3.state with history := o3.state.history
              ++ [{ process := process_id, action := "executed", timestamp := ts }] } }
        Except.ok (o4, result)

/-- `approve_process(process_id, approved)`.  The status assignment executes
before the return expression reads `self.processes[process_id].name`, so the
returned `Except.error` (a `KeyError` on an unknown id) still carries the
mutated state. -/
def approve_process (o : WorkflowOrchestrator) (process_id : String)
    (approved : Bool) : WorkflowOrchestrator × Except String String :=
  if approved then
    (setStatus o process_id ProcessStatus.COMPLETED,
      match alookup o.processes process_id with
      | none => Except.error "KeyError"
      | some proc => Except.ok ("✅ Process '" ++ proc.name ++ "' approved"))
  else
    (setStatus o process_id ProcessStatus.FAILED,
      match alookup o.processes process_id with
      | none => Except.error "KeyError"
      | some proc => Except.ok ("❌ Process '" ++ proc.name ++ "' rejected"))

/-- The loop of `get_next_process`: `Except.error` models the `KeyError` a
missing status entry would raise. -/
def findPending (status : List (String × ProcessStatus)) :
    List String → Except String (Option String)
  | [] => Except.ok none
  | proc_id :: rest =>
    match alookup status proc_id with
    | none => Except.error "KeyError"
    | some s =>
      if s = ProcessStatus.PENDING then Except.ok (some proc_id)
      else findPending status rest

/-- `get_next_process()`. -/
def get_next_process (o : WorkflowOrchestrator) : Except String (Option String) :=
  findPending o.state.process_status o.process_order

/-- The table of status transitions the specification allows:
`pending → running → (waiting_approval | completed | failed)` and
`waiting_approval → (completed | failed)`. -/
def allowed_transition : ProcessStatus → ProcessStatus → Bool
  | .PENDING, .RUNNING => true
  | .RUNNING, .WAITING_APPROVAL => true
  | .RUNNING, .COMPLETED => true
  | .RUNNING, .FAILED => true
  | .WAITING_APPROVAL, .COMPLETED => true
  | .WAITING_APPROVAL, .FAILED => true
  | _, _ => false

/-- Follows the specification's words for the context of the process at
index `i`: the stored outputs of all processes before `i` that have a
recorded output, in declared order, each labeled with the display name,
joined by the fixed delimiter; processes with no recorded output skipped. -/
def context_spec (o : WorkflowOrchestrator) (i : Nat) : String :=
  String.intercalate "\n\n---\n\n"
    ((o.process_order.take i).filterMap (fun pid =>
      (alookup o.state.process_outputs pid).map (fun out =>
        "[" ++ (match alookup o.processes pid with
                | some p => p.name
                | none => "") ++ "]\n" ++ out.outputText)))

/-! ### Basic lemmas about the dictionary model -/

theorem alookup_aset_self {α : Type} (d : List (String × α)) (k : String)
    (v : α) : alookup (aset d k v) k = some v := by
  induction d with
  | nil => simp [aset, alookup]
  | cons e rest ih =>
    obtain ⟨k0, v0⟩ := e
    by_cases h : k0 = k
    · simp [aset, h, alookup]
    · simp [aset, h, alookup, ih]

theorem alookup_aset_ne {α : Type} (d : List (String × α)) (k q : String)
    (v : α) (h : q ≠ k) : alookup (aset d k v) q = alookup d q := by
  induction d with
  | nil => simp [aset, alookup, Ne.symm h]
  | cons e rest ih =>
    obtain ⟨k0, v0⟩ := e
    by_cases hk : k0 = k
    · subst hk
      simp [aset, alookup, Ne.symm h]
    · by_cases hq : k0 = q <;> simp [aset, hk, alookup, hq, ih, h]

theorem alookup_mem {α : Type} (d : List (String × α)) (k : String) (v : α)
    (h : alookup d k = some v) : (k, v) ∈ d := by
  induction d with
  | nil => simp [alookup] at h
  | cons e rest ih =>
    obtain ⟨k0, v0⟩ := e
    by_cases hk : k0 = k
    · subst hk
      simp [alookup] at h
      simp [h]
    · simp [alookup, hk] at h
      exact List.mem_cons_of_mem _ (ih h)

theorem statusOf_setStatus_self (o : WorkflowOrchestrator) (pid : String)
    (s : ProcessStatus) : statusOf (setStatus o pid s) pid = some s := by
  simp [statusOf, setStatus, alookup_aset_self]

theorem statusOf_setStatus_ne (o : WorkflowOrchestrator) (pid q : String)
    (s : ProcessStatus) (h : q ≠ pid) :
    statusOf (setStatus o pid s) q = statusOf o q := by
  simp [statusOf, setStatus, alookup_aset_ne _ _ _ _ h]

theorem build_context_setStatus (o : WorkflowOrchestrator) (pid q : String)
    (s : ProcessStatus) :
    build_context (setStatus o pid s) q = build_context o q := by
  simp only [build_context, setStatus]

/-! ### Lemmas about the constructor's dictionary folds -/

theorem alookup_foldl_status (ps : List ProcessConfig)
    (d : List (String × ProcessStatus)) (k : String) :
    alookup (ps.foldl (fun d p => aset d p.id ProcessStatus.PENDING) d) k =
      if k ∈ ps.map (fun p => p.id) then some ProcessStatus.PENDING
      else alookup d k := by
  induction ps generalizing d with
  | nil => simp
  | cons p rest ih =>
    by_cases h : k = p.id
    · subst h
      simp [ih, alookup_aset_self]
    · simp [List.foldl_cons, ih, alookup_aset_ne _ _ _ _ h, h]

theorem alookup_foldl_absent (ps : List ProcessConfig)
    (d : List (String × ProcessConfig)) (k : String)
    (h : ∀ p ∈ ps, p.id ≠ k) :
    alookup (ps.foldl (fun d p => aset d p.id p) d) k = alookup d k := by
  induction ps generalizing d with
  | nil => simp
  | cons p rest ih =>
    have hp : p.id ≠ k := h p (List.mem_cons_self _ _)
    have hk : k ≠ p.id := fun he => hp he.symm
    simp only [List.foldl_cons]
    rw [ih _ (fun q hq => h q (List.mem_cons_of_mem _ hq)),
      alookup_aset_ne _ _ _ _ hk]

theorem alookup_foldl_nodup (ps : List ProcessConfig)
    (d : List (String × ProcessConfig)) (p : ProcessConfig)
    (hmem : p ∈ ps) (hnd : (ps.map (fun p => p.id)).Nodup) :
    alookup (ps.foldl (fun d q => aset d q.id q) d) p.id = some p := by
  induction ps generalizing d with
  | nil => simp at hmem
  | cons q rest ih =>
    simp only [List.map_cons, List.nodup_cons] at hnd
    rcases List.mem_cons.mp hmem with h | h
    · subst h
      have habs : ∀ r ∈ rest, r.id ≠ p.id := by
        intro r hr he
        have hmm : r.id ∈ List.map (fun x => x.id) rest :=
          List.mem_map_of_mem _ hr
        rw [he] at hmm
        exact hnd.1 hmm
      simp only [List.foldl_cons]
      rw [alookup_foldl_absent _ _ _ habs, alookup_aset_self]
    · simp only [List.foldl_cons]
      exact ih _ h hnd.2

/-! ### Concrete sample data for witnesses and counterexamples -/

/-- A sample process definition (no approval gate). -/
def procA : ProcessConfig :=
  { id := "a", name := "Alpha", description := "analyze", inputs := ["x"],
    outputs := ["y"] }

/-- A sample process definition with the approval gate set. -/
def procB : ProcessConfig :=
  { id := "b", name := "Beta", description := "design", inputs := ["y"],
    outputs := ["z"], requires_approval := true }

/-- A sample process definition (no approval gate). -/
def procC : ProcessConfig :=
  { id := "c", name := "Gamma", description := "generate", inputs := ["z"],
    outputs := ["w"] }

/-- A freshly constructed three-process orchestrator. -/
def sampleOrch : WorkflowOrchestrator :=
  WorkflowOrchestrator.init [procA, procB, procC] 0

/-- The sample orchestrator with process `b` waiting for approval. -/
def sampleWaiting : WorkflowOrchestrator :=
  setStatus sampleOrch "b" ProcessStatus.WAITING_APPROVAL

/-! ### Claim theorems -/

/-- C8: constructing the orchestrator from an ordered list of process
definitions records the declared order as `process_order`, initializes the
status of every listed process to `PENDING`, and (for distinct ids) maps
every identifier to its definition. -/
theorem C8_construct (ps : List ProcessConfig) (t : Nat)
    (hnd : (ps.map (fun p => p.id)).Nodup) :
    (WorkflowOrchestrator.init ps t).process_order = ps.map (fun p => p.id) ∧
    (∀ p ∈ ps,
      statusOf (WorkflowOrchestrator.init ps t) p.id
        = some ProcessStatus.PENDING) ∧
    (∀ p ∈ ps,
      alookup (WorkflowOrchestrator.init ps t).processes p.id = some p) := by
  refine ⟨rfl, ?_, ?_⟩
  · intro p hp
    simp [statusOf, WorkflowOrchestrator.init, alookup_foldl_status,
      List.mem_map_of_mem (fun p => p.id) hp]
  · intro p hp
    exact alookup_foldl_nodup ps [] p hp hnd

theorem C8_construct_witness :
    (([procA, procB, procC].map (fun p => p.id)).Nodup) ∧
    ((WorkflowOrchestrator.init [procA, procB, procC] 7).process_order
        = [procA, procB, procC].map (fun p => p.id) ∧
      (∀ p ∈ [procA, procB, procC],
        statusOf (WorkflowOrchestrator.init [procA, procB, procC] 7) p.id
          = some ProcessStatus.PENDING) ∧
      (∀ p ∈ [procA, procB, procC],
        alookup (WorkflowOrchestrator.init [procA, procB, procC] 7).processes p.id
          = some p)) :=
  ⟨by decide, C8_construct [procA, procB, procC] 7 (by decide)⟩

/-- C9: calling `execute_process` with a process id that is not a declared
process raises (`self.processes[process_id]` is evaluated before the `try`
block), rather than returning an error payload. -/
theorem C9_unknown_id (o : WorkflowOrchestrator) (pid : String)
    (inputs : List (String × String)) (resp : Except String String)
    (ts : String) (h : alookup o.processes pid = none) :
    execute_process o pid inputs resp ts = Except.error "KeyError" := by
  simp [execute_process, h]

theorem C9_unknown_id_witness :
    alookup sampleOrch.processes "zzz" = none ∧
    execute_process sampleOrch "zzz" [] (Except.ok "out") "t0"
      = Except.error "KeyError" :=
  ⟨by decide, C9_unknown_id sampleOrch "zzz" [] (Except.ok "out") "t0" (by decide)⟩

/-- C10: `approve_process` leaves `process_outputs`, the history log, the
process order, the process definitions and every other process's status
unchanged; only the given process's status entry is written. -/
theorem C10_approve_frame (o : WorkflowOrchestrator) (pid : String)
    (approved : Bool) :
    (approve_process o pid approved).1.state.process_outputs
        = o.state.process_outputs ∧
    (approve_process o pid approved).1.state.history = o.state.history ∧
    (approve_process o pid approved).1.process_order = o.process_order ∧
    (approve_process o pid approved).1.processes = o.processes ∧
    ∀ q, q ≠ pid →
      statusOf (approve_process o pid approved).1 q = statusOf o q := by
  cases approved <;>
    exact ⟨rfl, rfl, rfl, rfl, fun q hq => statusOf_setStatus_ne o pid q _ hq⟩

/-- C6: on a process waiting for approval, `approve_process` with `true`
sets the status to `COMPLETED` and with `false` to `FAILED`, and in both
cases returns a message naming the process. -/
theorem C6_approve (o : WorkflowOrchestrator) (pid : String)
    (proc : ProcessConfig) (hproc : alookup o.processes pid = some proc)
    (_hw : statusOf o pid = some ProcessStatus.WAITING_APPROVAL) :
    (statusOf (approve_process o pid true).1 pid
        = some ProcessStatus.COMPLETED ∧
      (approve_process o pid true).2
        = Except.ok ("✅ Process '" ++ proc.name ++ "' approved")) ∧
    (statusOf (approve_process o pid false).1 pid
        = some ProcessStatus.FAILED ∧
      (approve_process o pid false).2
        = Except.ok ("❌ Process '" ++ proc.name ++ "' rejected")) := by
  refine ⟨⟨?_, ?_⟩, ⟨?_, ?_⟩⟩ <;>
    simp [approve_process, hproc, statusOf_setStatus_self]

/-- The sample orchestrator with an output recorded for process `a`. -/
def sampleWithOutput : WorkflowOrchestrator :=
  { processes := sampleOrch.processes
    process_order := sampleOrch.process_order
    state := { sampleOrch.state with
      process_outputs := [("a", ExecResult.success "X" "a" "t0" [])] } }

/-- The sample orchestrator after `a` completed, `b` failed (`c` pending). -/
def sampleAfterFail : WorkflowOrchestrator :=
  setStatus (setStatus sampleOrch "a" ProcessStatus.COMPLETED) "b"
    ProcessStatus.FAILED

/-- The collected context parts are exactly the labelled outputs of the ids
that have a recorded output, in order, when every id with a recorded output
is a declared process. -/
theorem contextParts_eq (outputs : List (String × ExecResult))
    (procs : List (String × ProcessConfig)) (l : List String)
    (h : ∀ q ∈ l, (alookup outputs q).isSome → (alookup procs q).isSome) :
    contextParts outputs procs l
      = some (l.filterMap (fun pid => (alookup outputs pid).map (fun out =>
          "[" ++ (match alookup procs pid with
                  | some p => p.name
                  | none => "") ++ "]\n" ++ out.outputText))) := by
  induction l with
  | nil => simp [contextParts]
  | cons x xs ih =>
    have hrest : ∀ q ∈ xs, (alookup outputs q).isSome → (alookup procs q).isSome :=
      fun q hq => h q (List.mem_cons_of_mem _ hq)
    cases hx : alookup outputs x with
    | none => simp [contextParts, hx, ih hrest]
    | some out =>
      have hpx : (alookup procs x).isSome :=
        h x (List.mem_cons_self _ _) (by simp [hx])
      obtain ⟨p, hp⟩ := Option.isSome_iff_exists.mp hpx
      simp [contextParts, hx, hp, ih hrest]

/-- C2: for a process at (first) index `i` of the declared order, the built
context is exactly the specification's description: the stored outputs of
the processes before `i` that have a recorded output, in declared order,
labelled with the display name and joined by the fixed delimiter; processes
with no recorded output are skipped and processes at or after `i` never
contribute. -/
theorem C2_build_context (o : WorkflowOrchestrator) (pid : String) (i : Nat)
    (hidx : o.process_order.findIdx? (fun x => x == pid) = some i)
    (hwf : ∀ q ∈ o.process_order.take i,
      (alookup o.state.process_outputs q).isSome →
        (alookup o.processes q).isSome) :
    build_context o pid = some (context_spec o i) := by
  simp only [build_context, hidx,
    contextParts_eq o.state.process_outputs o.processes _ hwf,
    Option.map_some', context_spec]

theorem C2_build_context_witness :
    (sampleWithOutput.process_order.findIdx? (fun x => x == "b") = some 1 ∧
      (∀ q ∈ sampleWithOutput.process_order.take 1,
        (alookup sampleWithOutput.state.process_outputs q).isSome →
          (alookup sampleWithOutput.processes q).isSome)) ∧
    build_context sampleWithOutput "b" = some (context_spec sampleWithOutput 1) ∧
    context_spec sampleWithOutput 1 = "[Alpha]\nX" :=
  ⟨⟨by decide, by decide⟩,
    C2_build_context sampleWithOutput "b" 1 (by decide) (by decide),
    by decide⟩

/-- If `findPending` finds an id, that id splits the scanned list into a
prefix of non-pending ids and the found pending id. -/
theorem findPending_some (st : List (String × ProcessStatus))
    (l : List String) (pid : String)
    (h : findPending st l = Except.ok (some pid)) :
    ∃ l1 l2, l = l1 ++ pid :: l2 ∧
      alookup st pid = some ProcessStatus.PENDING ∧
      ∀ q ∈ l1, alookup st q ≠ some ProcessStatus.PENDING := by
  induction l with
  | nil => simp [findPending] at h
  | cons x xs ih =>
    cases hx : alookup st x with
    | none => simp [findPending, hx] at h
    | some s =>
      by_cases hs : s = ProcessStatus.PENDING
      · subst hs
        have hxp : x = pid := by simpa [findPending, hx] using h
        subst hxp
        exact ⟨[], xs, rfl, hx, by simp⟩
      · have h' : findPending st xs = Except.ok (some pid) := by
          simpa [findPending, hx, hs] using h
        obtain ⟨l1, l2, heq, hpend, hall⟩ := ih h'
        refine ⟨x :: l1, l2, by simp [heq], hpend, ?_⟩
        intro q hq
        rcases List.mem_cons.mp hq with rfl | hq'
        · rw [hx]
          exact fun he => hs (Option.some_inj.mp he)
        · exact hall q hq'

/-- When no scanned id is pending (and each has a status), `findPending`
returns `none` without raising. -/
theorem findPending_none (st : List (String × ProcessStatus))
    (l : List String)
    (hall : ∀ q ∈ l, (alookup st q).isSome)
    (h : ∀ q ∈ l, alookup st q ≠ some ProcessStatus.PENDING) :
    findPending st l = Except.ok none := by
  induction l with
  | nil => rfl
  | cons x xs ih =>
    obtain ⟨s, hs⟩ := Option.isSome_iff_exists.mp (hall x (List.mem_cons_self _ _))
    have hsp : s ≠ ProcessStatus.PENDING := by
      intro he
      exact h x (List.mem_cons_self _ _) (by rw [hs, he])
    have ih' := ih (fun q hq => hall q (List.mem_cons_of_mem _ hq))
      (fun q hq => h q (List.mem_cons_of_mem _ hq))
    simp [findPending, hs, hsp, ih']

/-- When some scanned id is pending and each id has a status, `findPending`
finds one. -/
theorem findPending_exists (st : List (String × ProcessStatus))
    (l : List String) (pid : String) (hmem : pid ∈ l)
    (hp : alookup st pid = some ProcessStatus.PENDING)
    (hall : ∀ q ∈ l, (alookup st q).isSome) :
    ∃ r, findPending st l = Except.ok (some r) := by
  induction l with
  | nil => simp at hmem
  | cons x xs ih =>
    obtain ⟨s, hs⟩ := Option.isSome_iff_exists.mp (hall x (List.mem_cons_self _ _))
    by_cases hsp : s = ProcessStatus.PENDING
    · subst hsp
      exact ⟨x, by simp [findPending, hs]⟩
    · have hxp : pid ≠ x := by
        intro he
        subst he
        rw [hp] at hs
        exact hsp (Option.some_inj.mp hs).symm
      have hmem' : pid ∈ xs := by
        rcases List.mem_cons.mp hmem with he | hm
        · exact absurd he hxp
        · exact hm
      obtain ⟨r, hr⟩ := ih hmem' (fun q hq => hall q (List.mem_cons_of_mem _ hq))
      exact ⟨r, by simp [findPending, hs, hsp, hr]⟩

/-- C7: `get_next_process` returns the lowest-index pending process: a
returned id is pending and everything before it in the declared order is
non-pending; when nothing is pending it returns `none`; and when something
is pending it finds one — in particular an earlier `FAILED` process does
not block a later pending one. -/
theorem C7_next_pending (o : WorkflowOrchestrator)
    (hall : ∀ q ∈ o.process_order, (alookup o.state.process_status q).isSome) :
    (∀ pid, get_next_process o = Except.ok (some pid) →
      ∃ l1 l2, o.process_order = l1 ++ pid :: l2 ∧
        statusOf o pid = some ProcessStatus.PENDING ∧
        ∀ q ∈ l1, statusOf o q ≠ some ProcessStatus.PENDING) ∧
    ((∀ q ∈ o.process_order, statusOf o q ≠ some ProcessStatus.PENDING) →
      get_next_process o = Except.ok none) ∧
    (∀ pid ∈ o.process_order, statusOf o pid = some ProcessStatus.PENDING →
      ∃ r, get_next_process o = Except.ok (some r)) := by
  refine ⟨?_, ?_, ?_⟩
  · intro pid h
    exact findPending_some o.state.process_status o.process_order pid h
  · intro h
    exact findPending_none o.state.process_status o.process_order hall h
  · intro pid hmem hp
    exact findPending_exists o.state.process_status o.process_order pid hmem hp hall

theorem C7_next_pending_witness :
    (∀ q ∈ sampleAfterFail.process_order,
      (alookup sampleAfterFail.state.process_status q).isSome) ∧
    ((∀ pid, get_next_process sampleAfterFail = Except.ok (some pid) →
      ∃ l1 l2, sampleAfterFail.process_order = l1 ++ pid :: l2 ∧
        statusOf sampleAfterFail pid = some ProcessStatus.PENDING ∧
        ∀ q ∈ l1, statusOf sampleAfterFail q ≠ some ProcessStatus.PENDING) ∧
    ((∀ q ∈ sampleAfterFail.process_order,
        statusOf sampleAfterFail q ≠ some ProcessStatus.PENDING) →
      get_next_process sampleAfterFail = Except.ok none) ∧
    (∀ pid ∈ sampleAfterFail.process_order,
      statusOf sampleAfterFail pid = some ProcessStatus.PENDING →
      ∃ r, get_next_process sampleAfterFail = Except.ok (some r))) ∧
    statusOf sampleAfterFail "b" = some ProcessStatus.FAILED ∧
    get_next_process sampleAfterFail = Except.ok (some "c") :=
  ⟨by decide, C7_next_pending sampleAfterFail (by decide), by decide, by decide⟩

/-- C1 fails as stated: on a freshly constructed orchestrator process `a`
is `PENDING`, and a single `approve_process` call moves it straight to
`COMPLETED` — a transition outside the specified table, reached without any
`waiting_approval` state. -/
theorem C1_counterexample :
    statusOf sampleOrch "a" = some ProcessStatus.PENDING ∧
    statusOf (approve_process sampleOrch "a" true).1 "a"
      = some ProcessStatus.COMPLETED ∧
    allowed_transition ProcessStatus.PENDING ProcessStatus.COMPLETED = false := by
  decide

/-- C1 (amended): when `execute_process` is invoked on a `PENDING` declared
process it first moves it to `RUNNING` (an allowed step) and ends in a
status reachable from `RUNNING`; when `approve_process` is invoked on a
`WAITING_APPROVAL` process the resulting status is reachable from
`WAITING_APPROVAL`.  The guards are the callers' responsibility: neither
operation checks the current status, so without these preconditions other
transitions (such as `PENDING → COMPLETED` via approval) are reachable. -/
theorem C1_transitions (o : WorkflowOrchestrator) (pid : String)
    (proc : ProcessConfig) (inputs : List (String × String))
    (resp : Except String String) (ts : String) (approved : Bool)
    (hproc : alookup o.processes pid = some proc) :
    (statusOf o pid = some ProcessStatus.PENDING →
      allowed_transition ProcessStatus.PENDING ProcessStatus.RUNNING = true ∧
      ∀ o' r, execute_process o pid inputs resp ts = Except.ok (o', r) →
        ∃ s', statusOf o' pid = some s' ∧
          allowed_transition ProcessStatus.RUNNING s' = true) ∧
    (statusOf o pid = some ProcessStatus.WAITING_APPROVAL →
      ∃ s', statusOf (approve_process o pid approved).1 pid = some s' ∧
        allowed_transition ProcessStatus.WAITING_APPROVAL s' = true) := by
  constructor
  · intro _hp
    refine ⟨rfl, ?_⟩
    intro o' r hexec
    simp only [execute_process, hproc] at hexec
    cases hctx : build_context (setStatus o pid ProcessStatus.RUNNING) pid with
    | none =>
      rw [hctx] at hexec
      simp only [Except.ok.injEq, Prod.mk.injEq] at hexec
      obtain ⟨ho, -⟩ := hexec
      subst ho
      exact ⟨ProcessStatus.FAILED, statusOf_setStatus_self _ _ _, rfl⟩
    | some c =>
      rw [hctx] at hexec
      cases resp with
      | error e =>
        simp only [Except.ok.injEq, Prod.mk.injEq] at hexec
        obtain ⟨ho, -⟩ := hexec
        subst ho
        exact ⟨ProcessStatus.FAILED, statusOf_setStatus_self _ _ _, rfl⟩
      | ok text =>
        simp only [Except.ok.injEq, Prod.mk.injEq] at hexec
        obtain ⟨ho, -⟩ := hexec
        subst ho
        refine ⟨if proc.requires_approval then ProcessStatus.WAITING_APPROVAL
          else ProcessStatus.COMPLETED, ?_, ?_⟩
        · simp [statusOf, setStatus, alookup_aset_self]
        · cases proc.requires_approval <;> simp [allowed_transition]
  · intro _hw
    cases approved with
    | true =>
      exact ⟨ProcessStatus.COMPLETED, statusOf_setStatus_self _ _ _, rfl⟩
    | false =>
      exact ⟨ProcessStatus.FAILED, statusOf_setStatus_self _ _ _, rfl⟩

theorem C1_transitions_witness :
    alookup sampleOrch.processes "a" = some procA ∧
    ((statusOf sampleOrch "a" = some ProcessStatus.PENDING →
      allowed_transition ProcessStatus.PENDING ProcessStatus.RUNNING = true ∧
      ∀ o' r, execute_process sampleOrch "a" [] (Except.ok "X") "t0"
          = Except.ok (o', r) →
        ∃ s', statusOf o' "a" = some s' ∧
          allowed_transition ProcessStatus.RUNNING s' = true) ∧
    (statusOf sampleOrch "a" = some ProcessStatus.WAITING_APPROVAL →
      ∃ s', statusOf (approve_process sampleOrch "a" true).1 "a" = some s' ∧
        allowed_transition ProcessStatus.WAITING_APPROVAL s' = true)) :=
  ⟨by decide,
    C1_transitions sampleOrch "a" procA [] (Except.ok "X") "t0" true (by decide)⟩

/-- Unfolding lemma: the exact outcome of `execute_process` on a declared
process when the model call succeeds. -/
theorem execute_process_success_eq (o : WorkflowOrchestrator) (pid : String)
    (proc : ProcessConfig) (inputs : List (String × String))
    (text ts c : String) (hproc : alookup o.processes pid = some proc)
    (hctx : build_context o pid = some c) :
    execute_process o pid inputs (Except.ok text) ts =
      Except.ok
        ({ processes := o.processes
           process_order := o.process_order
           state :=
             { o.state with
                process_outputs :=
                  aset o.state.process_outputs pid
                    (ExecResult.success text pid ts inputs)
                process_status :=
                  aset (aset o.state.process_status pid ProcessStatus.RUNNING)
                    pid
                    (if proc.requires_approval then
                      ProcessStatus.WAITING_APPROVAL
                     else ProcessStatus.COMPLETED)
                history :=
                  o.state.history ++ [⟨pid, "executed", ts⟩] } },
         ExecResult.success text pid ts inputs) := by
  have hctx1 : build_context (setStatus o pid ProcessStatus.RUNNING) pid
      = some c := by
    rw [build_context_setStatus]
    exact hctx
  simp only [execute_process, hproc]
  rw [hctx1]
  simp [setStatus]

/-- Unfolding lemma: the exact outcome of `execute_process` on a declared
process when the model call raises. -/
theorem execute_process_failure_eq (o : WorkflowOrchestrator) (pid : String)
    (proc : ProcessConfig) (inputs : List (String × String)) (e ts c : String)
    (hproc : alookup o.processes pid = some proc)
    (hctx : build_context o pid = some c) :
    execute_process o pid inputs (Except.error e) ts =
      Except.ok
        (setStatus (setStatus o pid ProcessStatus.RUNNING) pid
          ProcessStatus.FAILED,
         ExecResult.failure e pid ts) := by
  have hctx1 : build_context (setStatus o pid ProcessStatus.RUNNING) pid
      = some c := by
    rw [build_context_setStatus]
    exact hctx
  simp only [execute_process, hproc]
  rw [hctx1]

/-- C3: executing a declared process with a successful model response sets
its status to `WAITING_APPROVAL` when its definition requires approval and
to `COMPLETED` otherwise, and leaves every other process's status
unchanged. -/
theorem C3_execute_success (o : WorkflowOrchestrator) (pid : String)
    (proc : ProcessConfig) (inputs : List (String × String)) (text ts c : String)
    (hproc : alookup o.processes pid = some proc)
    (hctx : build_context o pid = some c) :
    ∃ o', execute_process o pid inputs (Except.ok text) ts
        = Except.ok (o', ExecResult.success text pid ts inputs) ∧
      statusOf o' pid
        = some (if proc.requires_approval then ProcessStatus.WAITING_APPROVAL
                else ProcessStatus.COMPLETED) ∧
      (∀ q, q ≠ pid → statusOf o' q = statusOf o q) := by
  refine ⟨_, execute_process_success_eq o pid proc inputs text ts c hproc hctx,
    ?_, ?_⟩
  · simp [statusOf, alookup_aset_self]
  · intro q hq
    simp [statusOf, alookup_aset_ne _ _ _ _ hq]

theorem C3_execute_success_witness :
    (alookup sampleOrch.processes "b" = some procB ∧
      build_context sampleOrch "b" = some "") ∧
    (∃ o', execute_process sampleOrch "b" [("input", "v")] (Except.ok "design doc") "t1"
        = Except.ok (o', ExecResult.success "design doc" "b" "t1" [("input", "v")]) ∧
      statusOf o' "b"
        = some (if procB.requires_approval then ProcessStatus.WAITING_APPROVAL
                else ProcessStatus.COMPLETED) ∧
      (∀ q, q ≠ "b" → statusOf o' q = statusOf sampleOrch q)) :=
  ⟨⟨by decide, by decide⟩,
    C3_execute_success sampleOrch "b" procB [("input", "v")] "design doc" "t1" ""
      (by decide) (by decide)⟩

/-- C4: when the model call raises, `execute_process` on a declared process
catches the exception (the call still returns a value), sets the status to
`FAILED`, and returns the failure payload `{error, process_id, timestamp}`
(the `ExecResult.failure` constructor, which has no output field). -/
theorem C4_execute_failure (o : WorkflowOrchestrator) (pid : String)
    (proc : ProcessConfig) (inputs : List (String × String)) (e ts c : String)
    (hproc : alookup o.processes pid = some proc)
    (hctx : build_context o pid = some c) :
    ∃ o', execute_process o pid inputs (Except.error e) ts
        = Except.ok (o', ExecResult.failure e pid ts) ∧
      statusOf o' pid = some ProcessStatus.FAILED := by
  refine ⟨_, execute_process_failure_eq o pid proc inputs e ts c hproc hctx, ?_⟩
  exact statusOf_setStatus_self _ _ _

theorem C4_execute_failure_witness :
    (alookup sampleOrch.processes "a" = some procA ∧
      build_context sampleOrch "a" = some "") ∧
    (∃ o', execute_process sampleOrch "a" [] (Except.error "429 quota") "t2"
        = Except.ok (o', ExecResult.failure "429 quota" "a" "t2") ∧
      statusOf o' "a" = some ProcessStatus.FAILED) :=
  ⟨⟨by decide, by decide⟩,
    C4_execute_failure sampleOrch "a" procA [] "429 quota" "t2" ""
      (by decide) (by decide)⟩

/-- C5 fails on the code: after a failed execution the failure payload is
returned but nothing is recorded in `process_outputs` — the `except` branch
never writes to it. -/
theorem C5_counterexample :
    (execute_process sampleOrch "a" [] (Except.error "boom") "t0").toOption.map
        (fun pr => (pr.2, alookup pr.1.state.process_outputs "a"))
      = some (ExecResult.failure "boom" "a" "t0", none) := by
  decide

/-- C5 (amended): the success payload is stored as the latest value under
its process id in `process_outputs`; the failure payload is only returned —
on a failed execution `process_outputs` is unchanged. -/
theorem C5_outputs_stored (o : WorkflowOrchestrator) (pid : String)
    (proc : ProcessConfig) (inputs : List (String × String))
    (text e ts c : String) (hproc : alookup o.processes pid = some proc)
    (hctx : build_context o pid = some c) :
    (∃ o', execute_process o pid inputs (Except.ok text) ts
        = Except.ok (o', ExecResult.success text pid ts inputs) ∧
      alookup o'.state.process_outputs pid
        = some (ExecResult.success text pid ts inputs)) ∧
    (∃ o', execute_process o pid inputs (Except.error e) ts
        = Except.ok (o', ExecResult.failure e pid ts) ∧
      o'.state.process_outputs = o.state.process_outputs) := by
  constructor
  · refine ⟨_, execute_process_success_eq o pid proc inputs text ts c hproc hctx,
      ?_⟩
    simp [alookup_aset_self]
  · exact ⟨_, execute_process_failure_eq o pid proc inputs e ts c hproc hctx,
      rfl⟩

theorem C5_outputs_stored_witness :
    (alookup sampleOrch.processes "a" = some procA ∧
      build_context sampleOrch "a" = some "") ∧
    ((∃ o', execute_process sampleOrch "a" [] (Except.ok "X") "t0"
        = Except.ok (o', ExecResult.success "X" "a" "t0" []) ∧
      alookup o'.state.process_outputs "a"
        = some (ExecResult.success "X" "a" "t0" [])) ∧
    (∃ o', execute_process sampleOrch "a" [] (Except.error "boom2") "t0"
        = Except.ok (o', ExecResult.failure "boom2" "a" "t0") ∧
      o'.state.process_outputs = sampleOrch.state.process_outputs)) :=
  ⟨⟨by decide, by decide⟩,
    C5_outputs_stored sampleOrch "a" procA [] "X" "boom2" "t0" ""
      (by decide) (by decide)⟩

theorem C6_approve_witness :
    (alookup sampleWaiting.processes "b" = some procB ∧
      statusOf sampleWaiting "b" = some ProcessStatus.WAITING_APPROVAL) ∧
    ((statusOf (approve_process sampleWaiting "b" true).1 "b"
        = some ProcessStatus.COMPLETED ∧
      (approve_process sampleWaiting "b" true).2
        = Except.ok ("✅ Process '" ++ procB.name ++ "' approved")) ∧
    (statusOf (approve_process sampleWaiting "b" false).1 "b"
        = some ProcessStatus.FAILED ∧
      (approve_process sampleWaiting "b" false).2
        = Except.ok ("❌ Process '" ++ procB.name ++ "' rejected"))) :=
  ⟨⟨by decide, by decide⟩,
    C6_approve sampleWaiting "b" procB (by decide) (by decide)⟩
